import Mathlib

/-!
Verification development for the systemctl-tui service-manager TUI.

The definitions below are a shallow embedding of the program's core state
machine: the unit registry and filtered view (`src/components/home.rs`), the
unit data model (`src/systemd.rs`), the action-dispatch reducer
(`Home::dispatch`), and the completion handler of cancellable service actions
(`Home::service_action`).

Modelling conventions:
- Rust `String` is `List Char` (`Str`); `str::to_lowercase` is modelled
  character-wise by `Char.toLower`.
- `IndexMap<UnitId, UnitWithStatus>` is an insertion-ordered association list;
  `insert` replaces the value in place when the key is present and appends
  otherwise, exactly as `IndexMap::insert` does.
- Functions that can panic in Rust (`unwrap` on an absent channel sender,
  indexing with an out-of-bounds cursor) return `Option`; `none` is a panic.
  The one `usize` subtraction that can overflow (`items.len() - 1` in
  `StatefulList::previous` on an empty list) is modelled with release-mode
  wrapping semantics, yielding `usize::MAX`.
- Channel senders (`action_tx`, `journalctl_tx`) are modelled by a `Bool`
  recording whether they are populated (they are after `init`); sending has no
  effect on the `Home` state. `CancellationToken`s are modelled by `Nat` ids
  drawn from a counter, with the set of signalled tokens recorded in
  `cancelled_tokens`, and the clipboard collaborator's success by a `Bool`.
-/

namespace SystemctlTui

/-- Rust strings, embedded as lists of characters. -/
abbrev Str := List Char

/-- Models `str::to_lowercase`, applied character-wise. -/
def toLowerStr (s : Str) : Str := s.map Char.toLower

/-- Models `Iterator::position`: index of the first element satisfying `p`. -/
def position (p : α → Bool) : List α → Option Nat
  | [] => none
  | a :: as => if p a then some 0 else (position p as).map (· + 1)

/-- The usize wraparound modulus (release-mode two's complement). -/
def USIZE : Nat := 2 ^ 64

/-- Scope of one unit (`systemd.rs`): system-wide or per-user. -/
inductive UnitScope where
  | Global
  | User
deriving DecidableEq, Repr

/-- Scope selector for listing (`systemd.rs::Scope`), may cover both scopes. -/
inductive Scope where
  | Global
  | User
  | All
deriving DecidableEq, Repr

/-- Just enough info to fully identify a unit (`systemd.rs::UnitId`). -/
structure UnitId where
  name : Str
  scope : UnitScope
deriving DecidableEq, Repr

/-- A systemd unit with its status (`systemd.rs::UnitWithStatus`). -/
structure UnitWithStatus where
  name : Str
  scope : UnitScope
  description : Str
  file_path : Option Str
  load_state : Str
  activation_state : Str
  sub_state : Str
  enablement_state : Option Str
deriving DecidableEq, Repr

/-- The `.service` suffix stripped by `short_name`. -/
def dotService : Str := ".service".toList

/-- Models `UnitWithStatus::short_name`: the name with a trailing `.service`
suffix (8 characters) stripped. -/
def UnitWithStatus.short_name (u : UnitWithStatus) : Str :=
  if dotService.isSuffixOf u.name then u.name.take (u.name.length - 8) else u.name

/-- Models `UnitWithStatus::id`. -/
def UnitWithStatus.id (u : UnitWithStatus) : UnitId :=
  { name := u.name, scope := u.scope }

/-- Models `UnitWithStatus::update`: replaces description, load state,
activation state and sub-state from a fresher snapshot, keeping every other
field (notably `file_path`, which is expensive to fetch). -/
def UnitWithStatus.update (self other : UnitWithStatus) : UnitWithStatus :=
  { self with
    description := other.description,
    load_state := other.load_state,
    activation_state := other.activation_state,
    sub_state := other.sub_state }

/-- The UI mode (`home.rs::Mode`). -/
inductive Mode where
  | Search
  | ServiceList
  | Help
  | ActionMenu
  | Processing
  | Error
deriving DecidableEq, Repr

/-- The closed set of messages the dispatcher interprets (`action.rs`). -/
inductive Action where
  | Quit
  | Resume
  | Suspend
  | Render
  | DebouncedRender
  | SpinnerTick
  | Resize (w h : Nat)
  | ToggleShowLogger
  | RefreshServices
  | SetServices (units : List UnitWithStatus)
  | EnterMode (mode : Mode)
  | EnterError (err : Str)
  | CancelTask
  | ToggleHelp
  | SetUnitFilePath (unit : UnitId) (path : Str)
  | CopyUnitFilePath
  | SetUnitDescription (unit : UnitId) (description : Str)
  | SetLogs (unit : UnitId) (logs : List Str)
  | AppendLogLine (unit : UnitId) (line : Str)
  | StartService (unit : UnitId)
  | StopService (unit : UnitId)
  | RestartService (unit : UnitId)
  | ReloadService (unit : UnitId)
  | EnableService (unit : UnitId)
  | DisableService (unit : UnitId)
  | ScrollUp (offset : Nat)
  | ScrollDown (offset : Nat)
  | ScrollToTop
  | ScrollToBottom
  | Noop
deriving DecidableEq, Repr

/-- One entry of the action menu (`home.rs::MenuItem`). -/
structure MenuItem where
  name : Str
  action : Action
deriving DecidableEq, Repr

/-- A list paired with a selection cursor (`home.rs::StatefulList`); the
cursor is ratatui's `ListState::selected()`. -/
structure StatefulList (T : Type) where
  cursor : Option Nat := none
  items : List T := []
deriving DecidableEq, Repr

namespace StatefulList

variable {T : Type}

/-- Models `StatefulList::selected`, panic-aware: `none` is a panic (cursor
out of bounds on a non-empty list); `some none` is "nothing selected". On an
empty list the cursor is ignored and nothing is selected. -/
def selectedP (l : StatefulList T) : Option (Option T) :=
  if l.items.isEmpty then some none
  else
    match l.cursor with
    | some i => if h : i < l.items.length then some (some (l.items.get ⟨i, h⟩)) else none
    | none => some none

/-- The observable selection on non-panicking states. -/
def selectedD (l : StatefulList T) : Option T :=
  (l.selectedP).getD none

/-- Models `StatefulList::next`: move the cursor down with wraparound;
`saturating_sub` keeps `items.len() - 1` at zero for the empty list. -/
def next (l : StatefulList T) : StatefulList T :=
  let i : Nat :=
    match l.cursor with
    | some i => if i ≥ l.items.length - 1 then 0 else i + 1
    | none => 0
  { l with cursor := some i }

/-- Models `StatefulList::previous`: move the cursor up with wraparound.
`items.len() - 1` is a `usize` subtraction: on an empty list it overflows and
(release mode) wraps to `usize::MAX`. -/
def previous (l : StatefulList T) : StatefulList T :=
  let i : Nat :=
    match l.cursor with
    | some i =>
      if i = 0 then (if l.items.length = 0 then USIZE - 1 else l.items.length - 1)
      else i - 1
    | none => 0
  { l with cursor := some i }

/-- Models `StatefulList::select`. -/
def select (l : StatefulList T) (index : Option Nat) : StatefulList T :=
  { l with cursor := index }

/-- Models `StatefulList::unselect`. -/
def unselect (l : StatefulList T) : StatefulList T :=
  { l with cursor := none }

end StatefulList

/-- Insertion-ordered map from unit ids to units, modelling the
`IndexMap<UnitId, UnitWithStatus>` held in `Home::all_units`. -/
abbrev UnitMap := List (UnitId × UnitWithStatus)

/-- Models `IndexMap::get`. -/
def getMap : UnitMap → UnitId → Option UnitWithStatus
  | [], _ => none
  | (k, v) :: rest, k' => if k = k' then some v else getMap rest k'

/-- Models `IndexMap::insert`: replace the value in place when the key is
present, append otherwise. -/
def insertMap : UnitMap → UnitId → UnitWithStatus → UnitMap
  | [], k, v => [(k, v)]
  | (k', v') :: rest, k, v =>
    if k' = k then (k', v) :: rest else (k', v') :: insertMap rest k v

/-- Applies `existing.update(unit)` in place at the entry with key `k`
(the `get_mut` + `update` path of `Home::update_units`). -/
def updateEntry : UnitMap → UnitId → UnitWithStatus → UnitMap
  | [], _, _ => []
  | (k', v') :: rest, k, u =>
    if k' = k then (k', v'.update u) :: rest else (k', v') :: updateEntry rest k u

/-- Whether a key is present. -/
def containsKey (m : UnitMap) (k : UnitId) : Bool :=
  (getMap m k).isSome

/-- One step of `Home::update_units`: update in place when the id exists,
otherwise insert (append) the new unit. -/
def mergeOne (m : UnitMap) (u : UnitWithStatus) : UnitMap :=
  if containsKey m u.id then updateEntry m u.id u else m ++ [(u.id, u)]

/-- The loop of `Home::update_units` over the incoming snapshot. -/
def mergeUnits (m : UnitMap) (units : List UnitWithStatus) : UnitMap :=
  units.foldl mergeOne m

/-- Models `IndexMap::values` (insertion order). -/
def valuesMap (m : UnitMap) : List UnitWithStatus :=
  m.map Prod.snd

/-- Sets `file_path` on the entry with the given id, in place
(the `Action::SetUnitFilePath` arm of `Home::dispatch`). -/
def setFilePath : UnitMap → UnitId → Str → UnitMap
  | [], _, _ => []
  | (k, v) :: rest, unit, path =>
    if k = unit then (k, { v with file_path := some path }) :: rest
    else (k, v) :: setFilePath rest unit path

/-- Models `str::contains`: the needle occurs as a contiguous substring of
the haystack. -/
def strContains (haystack needle : Str) : Bool :=
  decide (List.IsInfix needle haystack)

/-- The filter predicate of `Home::refresh_filtered_units`: the short name,
lowercased, contains the lowercased search value. -/
def unitMatches (search_value : Str) (u : UnitWithStatus) : Bool :=
  strContains (toLowerStr u.short_name) (toLowerStr search_value)

/-- The owned state of the application core (`home.rs::Home`). -/
structure Home where
  scope : Scope := Scope.All
  limit_units : List Str := []
  show_logger : Bool := false
  all_units : UnitMap := []
  filtered_units : StatefulList UnitWithStatus := {}
  logs : List Str := []
  logs_scroll_offset : Nat := 0
  mode : Mode := Mode.Search
  previous_mode : Option Mode := none
  input : Str := []
  menu_items : StatefulList MenuItem := {}
  cancel_token : Option Nat := none
  spinner_tick : Nat := 0
  error_message : Str := []
  action_tx : Bool := false
  journalctl_tx : Bool := false
  fresh_token : Nat := 0
  cancelled_tokens : List Nat := []
  clipboard_ok : Bool := true
deriving DecidableEq, Repr

namespace Home

/-- Models `Home::selected_service`, panic-aware (outer `Option`). -/
def selected_service (h : Home) : Option (Option UnitId) :=
  (h.filtered_units.selectedP).map (fun s => s.map UnitWithStatus.id)

/-- Models `Home::get_logs`: when a unit is selected, its id is sent to the
journalctl thread (a channel send with no effect on `Home`; the `unwrap` of
`journalctl_tx` panics when the sender is absent); when nothing is selected
the log buffer is cleared. -/
def get_logs (h : Home) : Option Home :=
  match h.filtered_units.selectedP with
  | none => none
  | some (some _) => if h.journalctl_tx then some h else none
  | some none => some { h with logs := [] }

/-- Models `Home::select(index, refresh_logs)`. -/
def select (h : Home) (index : Option Nat) (refresh_logs : Bool) : Option Home :=
  let h1 := if refresh_logs then { h with logs := [] } else h
  let h2 := { h1 with filtered_units := h1.filtered_units.select index }
  if refresh_logs then
    (h2.get_logs).map (fun h3 => { h3 with logs_scroll_offset := 0 })
  else some h2

/-- Models `Home::unselect`. -/
def unselect (h : Home) : Home :=
  { h with logs := [], filtered_units := h.filtered_units.unselect }

/-- Models `Home::next`. -/
def next (h : Home) : Option Home :=
  let h1 := { h with logs := [], filtered_units := h.filtered_units.next }
  (h1.get_logs).map (fun h2 => { h2 with logs_scroll_offset := 0 })

/-- Models `Home::previous`. -/
def previous (h : Home) : Option Home :=
  let h1 := { h with logs := [], filtered_units := h.filtered_units.previous }
  (h1.get_logs).map (fun h2 => { h2 with logs_scroll_offset := 0 })

/-- The second half of `Home::refresh_filtered_units` ("try to select the
same item we had selected before"), applied after the filtered items have
been replaced: reselect the previously selected unit by name and scope, fall
back to index 0, or unselect when nothing was selected and the view is
empty. -/
def refreshReselect (h1 : Home) (previously_selected : Option UnitId) : Option Home :=
  match previously_selected with
  | some p =>
    match position (fun u => u.name == p.name && u.scope == p.scope)
        h1.filtered_units.items with
    | some index => h1.select (some index) false
    | none => h1.select (some 0) true
  | none =>
    if !h1.filtered_units.items.isEmpty then h1.select (some 0) true
    else some h1.unselect

/-- Models `Home::refresh_filtered_units`: recompute the filtered view from
`all_units` and the search string, then reselect (`refreshReselect`). -/
def refresh_filtered_units (h : Home) : Option Home :=
  match h.selected_service with
  | none => none
  | some previously_selected =>
    let matching := (valuesMap h.all_units).filter (unitMatches h.input)
    Home.refreshReselect
      { h with filtered_units := { h.filtered_units with items := matching } }
      previously_selected

/-- Models `Home::set_units`: clear and repopulate `all_units`, then refresh
the filtered view. -/
def set_units (h : Home) (units : List UnitWithStatus) : Option Home :=
  let m := units.foldl (fun m u => insertMap m u.id u) []
  ({ h with all_units := m }).refresh_filtered_units

/-- Models `Home::update_units`: merge the incoming snapshot into `all_units`
in place, then refresh the filtered view. -/
def update_units (h : Home) (units : List UnitWithStatus) : Option Home :=
  ({ h with all_units := mergeUnits h.all_units units }).refresh_filtered_units

/-- Models the synchronous part of `Home::service_action` (shared by
`start_service`, `stop_service` and `restart_service`): unwraps the action
sender (panic when absent), creates a fresh cancellation token and stores it
as the current task slot, and spawns the operation plus its spinner task. -/
def service_action (h : Home) : Option Home :=
  if h.action_tx then
    some { h with cancel_token := some h.fresh_token, fresh_token := h.fresh_token + 1 }
  else none

end Home

/-- A placeholder for the formatted clipboard failure message built in the
`Action::CopyUnitFilePath` arm. -/
def clipboardErrorMessage : Str := "Error copying to clipboard: ".toList

/-- Models `Home::dispatch`: applies one `Action` against the owned state,
returning the new state and at most one follow-up action; `none` is a panic. -/
def Home.dispatch (h : Home) (action : Action) : Option (Home × Option Action) :=
  match action with
  | .ToggleShowLogger =>
    some ({ h with show_logger := !h.show_logger }, some .Render)
  | .EnterMode mode =>
    if mode = Mode.ActionMenu then
      match h.filtered_units.selectedP with
      | none => none
      | some none => some (h, none)
      | some (some selected) =>
        let menu_items : List MenuItem :=
          [ { name := "Start".toList, action := .StartService selected.id },
            { name := "Stop".toList, action := .StopService selected.id },
            { name := "Restart".toList, action := .RestartService selected.id },
            { name := "Copy unit file path to clipboard".toList, action := .CopyUnitFilePath } ]
        some ({ h with
                menu_items := { cursor := some 0, items := menu_items },
                mode := mode }, some .Render)
    else some ({ h with mode := mode }, some .Render)
  | .EnterError err =>
    some ({ h with error_message := err }, some (.EnterMode Mode.Error))
  | .ToggleHelp =>
    if h.mode ≠ Mode.Help then
      some ({ h with previous_mode := some h.mode, mode := Mode.Help }, some .Render)
    else
      some ({ h with mode := h.previous_mode.getD Mode.Search }, some .Render)
  | .CopyUnitFilePath =>
    match h.filtered_units.selectedP with
    | none => none
    | some none => some (h, none)
    | some (some selected) =>
      match selected.file_path with
      | some _ =>
        if h.clipboard_ok then some (h, some (.EnterMode Mode.ServiceList))
        else some (h, some (.EnterError clipboardErrorMessage))
      | none => some (h, some (.EnterError "No unit file path available".toList))
  | .SetUnitFilePath unit path =>
    match ({ h with all_units := setFilePath h.all_units unit path }).refresh_filtered_units with
    | none => none
    | some h1 => some (h1, none)
  | .SetLogs unit logs =>
    match h.filtered_units.selectedP with
    | none => none
    | some (some selected) =>
      if selected.id = unit then some ({ h with logs := logs }, none) else some (h, none)
    | some none => some (h, none)
  | .AppendLogLine unit line =>
    match h.filtered_units.selectedP with
    | none => none
    | some (some selected) =>
      if selected.id = unit then some ({ h with logs := h.logs ++ [line] }, none)
      else some (h, none)
    | some none => some (h, none)
  | .ScrollUp offset =>
    some ({ h with logs_scroll_offset := h.logs_scroll_offset - offset }, none)
  | .ScrollDown offset =>
    some ({ h with logs_scroll_offset := min (h.logs_scroll_offset + offset) (2 ^ 16 - 1) }, none)
  | .ScrollToTop => some ({ h with logs_scroll_offset := 0 }, none)
  | .ScrollToBottom => some ({ h with logs_scroll_offset := h.logs.length % 2 ^ 16 }, none)
  | .StartService _ => (h.service_action).map (fun h1 => (h1, none))
  | .StopService _ => (h.service_action).map (fun h1 => (h1, none))
  | .RestartService _ => (h.service_action).map (fun h1 => (h1, none))
  | .RefreshServices => if h.action_tx then some (h, none) else none
  | .SetServices units =>
    match h.update_units units with
    | none => none
    | some h1 => some (h1, some .Render)
  | .SpinnerTick =>
    some ({ h with spinner_tick := (h.spinner_tick + 1) % 2 ^ 8 }, some .Render)
  | .CancelTask =>
    let cancelled :=
      match h.cancel_token with
      | some t => t :: h.cancelled_tokens
      | none => h.cancelled_tokens
    some ({ h with
            cancel_token := none,
            cancelled_tokens := cancelled,
            mode := Mode.ServiceList }, some .Render)
  | _ => some (h, none)

/-- The key codes distinguished by `Home::handle_key_events` in Error mode. -/
inductive KeyCode where
  | Esc
  | Enter
  | Up
  | Down
  | Tab
  | Space
  | Other
deriving DecidableEq, Repr

/-- Key handling when the mode is `Mode::Error` (home.rs lines 503-506):
Esc or Enter emit `EnterMode(ServiceList)`; every other key emits nothing. -/
def errorModeKeys (key : KeyCode) : List Action :=
  match key with
  | .Esc => [Action.EnterMode Mode.ServiceList]
  | .Enter => [Action.EnterMode Mode.ServiceList]
  | _ => []

/-- The pattern recognized as a permission error in `Home::service_action`. -/
def accessDeniedPattern : Str := "AccessDenied".toList

/-- The elevation hint appended to recognized permission errors. -/
def sudoHint : Str := "Try running this tool with sudo.".toList

/-- The error string built in the failure arm of `Home::service_action`:
the message, with the sudo hint appended (after a blank line) exactly when
the message contains `AccessDenied`. -/
def serviceActionErrorMessage (e : Str) : Str :=
  if strContains e accessDeniedPattern then e ++ ['\n', '\n'] ++ sudoHint else e

/-- The outcome of the async completion handler spawned by
`Home::service_action`. -/
structure CompletionOutcome where
  emitted : List Action
  spinner_stopped : Bool
deriving DecidableEq, Repr

/-- Models the completion handler spawned by `Home::service_action`
(home.rs lines 298-330): depending on the operation's result and on whether
the cancellation token was cancelled, follow-up actions are emitted; the
spinner task is aborted and a `RefreshServices` request is sent in every
case (followed by `trailingRefreshCount` delayed refreshes). -/
def serviceActionComplete (result : Except Str Unit) (is_cancelled : Bool) :
    CompletionOutcome :=
  let fromResult : List Action :=
    match result with
    | .ok _ => [Action.EnterMode Mode.ServiceList]
    | .error e =>
      if is_cancelled then []
      else [Action.EnterError (serviceActionErrorMessage e)]
  { emitted := fromResult ++ [Action.RefreshServices], spinner_stopped := true }

/-- Number of extra delayed refreshes after a service action completes. -/
def trailingRefreshCount : Nat := 3

/-- The claim C1 invariant as the spec states it: the cursor is `None` or a
valid index. -/
def cursorValid {T : Type} (l : StatefulList T) : Bool :=
  match l.cursor with
  | none => true
  | some i => decide (i < l.items.length)

/-- The invariant the code actually maintains: the cursor is `None` or a
valid index, except that on an empty list it may hold an arbitrary index
(which is observably no selection, since `selected()` guards on emptiness). -/
def goodCursor {T : Type} (l : StatefulList T) : Prop :=
  l.items = [] ∨ cursorValid l = true

instance {T : Type} [DecidableEq T] (l : StatefulList T) : Decidable (goodCursor l) := by
  unfold goodCursor; infer_instance

/-- The unit-registry operations quantified over in claim C1. -/
inductive RegistryOp where
  | setUnits (units : List UnitWithStatus)
  | updateUnits (units : List UnitWithStatus)
  | setSearch (s : Str)
  | next
  | previous
  | select (index : Option Nat)
  | unselect
deriving DecidableEq, Repr

/-- Applies one registry operation; `setSearch` models the search-text-change
path of `Home::handle_key_events` (home.rs lines 518-527), which stores the
new value and calls `refresh_filtered_units`. -/
def Home.applyOp (h : Home) : RegistryOp → Option Home
  | .setUnits units => h.set_units units
  | .updateUnits units => h.update_units units
  | .setSearch s => ({ h with input := s }).refresh_filtered_units
  | .next => h.next
  | .previous => h.previous
  | .select index => h.select index true
  | .unselect => some h.unselect

/-- Side condition on `RegistryOp.select`: the program only ever calls
`Home::select` with `None` or an index of the current filtered view. -/
def opValid (h : Home) : RegistryOp → Prop
  | .select (some j) => j < h.filtered_units.items.length ∨ h.filtered_units.items = []
  | _ => True

/-- The `Action` variants that fall through to the catch-all arm of
`Home::dispatch`. -/
def isCatchAll : Action → Bool
  | .Quit => true
  | .Resume => true
  | .Suspend => true
  | .Render => true
  | .DebouncedRender => true
  | .Resize _ _ => true
  | .SetUnitDescription _ _ => true
  | .ReloadService _ => true
  | .EnableService _ => true
  | .DisableService _ => true
  | .Noop => true
  | _ => false

/-! Concrete example states used to instantiate the theorems below. -/

/-- A concrete active unit with a cached unit-file path. -/
def egUnitA : UnitWithStatus :=
  { name := "a.service".toList, scope := UnitScope.Global, description := "A".toList,
    file_path := some "/etc/a.service".toList, load_state := "loaded".toList,
    activation_state := "active".toList, sub_state := "running".toList,
    enablement_state := none }

/-- A concrete failed unit with no cached path. -/
def egUnitB : UnitWithStatus :=
  { name := "b.service".toList, scope := UnitScope.Global, description := "B".toList,
    file_path := none, load_state := "loaded".toList,
    activation_state := "failed".toList, sub_state := "dead".toList,
    enablement_state := none }

/-- A fresher snapshot of `egUnitA` as a periodic refresh would produce it:
no file path, changed activation state. -/
def egUnitA2 : UnitWithStatus :=
  { name := "a.service".toList, scope := UnitScope.Global, description := "A".toList,
    file_path := none, load_state := "loaded".toList,
    activation_state := "inactive".toList, sub_state := "dead".toList,
    enablement_state := none }

/-- A post-init state with two units loaded and the first one selected. -/
def egHome : Home :=
  { all_units := [(egUnitA.id, egUnitA), (egUnitB.id, egUnitB)],
    filtered_units := { cursor := some 0, items := [egUnitA, egUnitB] },
    action_tx := true, journalctl_tx := true }

/-- Like `egHome` but with a pending cancellation token in the task slot. -/
def egHomeToken : Home :=
  { egHome with cancel_token := some 7, fresh_token := 8, mode := Mode.Processing }

/-- A state in ActionMenu mode, used to exhibit the Error-mode return path. -/
def egHomeC9 : Home :=
  { egHome with mode := Mode.ActionMenu }

/-- The state after `EnterError` is dispatched against `egHomeC9`. -/
def egHomeC9b : Home :=
  ((egHomeC9.dispatch (Action.EnterError "boom".toList)).map Prod.fst).getD egHomeC9

/-- The state after the follow-up `EnterMode(Error)` is dispatched. -/
def egHomeC9c : Home :=
  ((egHomeC9b.dispatch (Action.EnterMode Mode.Error)).map Prod.fst).getD egHomeC9

/-- The state after the Esc keypress's `EnterMode(ServiceList)` is
dispatched. -/
def egHomeC9d : Home :=
  ((egHomeC9c.dispatch (Action.EnterMode Mode.ServiceList)).map Prod.fst).getD egHomeC9

/-- The state after merging the fresher snapshot `[egUnitA2]` into `egHome`. -/
def egHomeMerged : Home :=
  (egHome.update_units [egUnitA2]).getD egHome

/-- `egHome` with search text set to "a". -/
def egHomeSearchA : Home :=
  { egHome with input := "a".toList }

/-- The state after recomputing the filtered view of `egHomeSearchA`. -/
def egHomeSearchARef : Home :=
  (egHomeSearchA.refresh_filtered_units).getD egHomeSearchA

/-- The state after dispatching `CancelTask` against `egHomeToken`. -/
def egHomeTokenCancelled : Home :=
  ((egHomeToken.dispatch Action.CancelTask).map Prod.fst).getD egHomeToken

/-! Basic lemmas about `position`, `selectedP` and the cursor invariant. -/

theorem position_lt_length {α : Type} {p : α → Bool} {l : List α} {i : Nat}
    (h : position p l = some i) : i < l.length := by
  induction l generalizing i with
  | nil => simp [position] at h
  | cons a as ih =>
    simp only [position] at h
    by_cases hp : p a = true
    · rw [if_pos hp] at h
      simp only [Option.some.injEq] at h
      subst h
      simp
    · rw [if_neg hp] at h
      cases hpos : position p as with
      | none => rw [hpos] at h; simp at h
      | some j =>
        rw [hpos] at h
        simp only [Option.map_some', Option.some.injEq] at h
        subst h
        have hj := ih hpos
        simp only [List.length_cons]
        omega

theorem StatefulList.selectedP_of_goodCursor {T : Type} {l : StatefulList T}
    (hg : goodCursor l) : ∃ v, l.selectedP = some v := by
  unfold StatefulList.selectedP
  by_cases he : l.items.isEmpty = true
  · rw [if_pos he]; exact ⟨none, rfl⟩
  · rw [if_neg he]
    cases hc : l.cursor with
    | none => exact ⟨none, rfl⟩
    | some i =>
      rcases hg with hempty | hvalid
      · rw [hempty] at he; simp at he
      · unfold cursorValid at hvalid
        rw [hc] at hvalid
        simp at hvalid
        exact ⟨some (l.items.get ⟨i, hvalid⟩), by simp [hvalid]⟩

theorem StatefulList.selectedD_of_nil {T : Type} {l : StatefulList T}
    (he : l.items = []) : l.selectedD = none := by
  unfold StatefulList.selectedD StatefulList.selectedP
  rw [if_pos (by rw [he]; rfl)]
  rfl

/-! Lemmas about `get_logs` and `select`. -/

theorem Home.get_logs_total (h : Home)
    (hok : h.filtered_units.items = [] ∨ h.filtered_units.cursor = none ∨
      ∃ i, h.filtered_units.cursor = some i ∧ i < h.filtered_units.items.length ∧
        h.journalctl_tx = true) :
    h.get_logs = some h ∨ h.get_logs = some { h with logs := [] } := by
  unfold Home.get_logs StatefulList.selectedP
  by_cases he : h.filtered_units.items.isEmpty = true
  · rw [if_pos he]
    right; rfl
  · rw [if_neg he]
    cases hc : h.filtered_units.cursor with
    | none => right; rfl
    | some i =>
      rcases hok with hempty | hnone | ⟨j, hcj, hj, hjtx⟩
      · rw [hempty] at he; simp at he
      · rw [hc] at hnone; simp at hnone
      · rw [hc] at hcj
        injection hcj with hji
        subst hji
        left
        simp [hj, hjtx]

theorem Home.get_logs_success {h h2 : Home} (hs : h.get_logs = some h2) :
    h2 = h ∨ h2 = { h with logs := [] } := by
  unfold Home.get_logs at hs
  cases hsel : h.filtered_units.selectedP with
  | none => rw [hsel] at hs; simp at hs
  | some v =>
    rw [hsel] at hs
    cases v with
    | none =>
      simp only [Option.some.injEq] at hs
      right; exact hs.symm
    | some u =>
      by_cases hj : h.journalctl_tx = true
      · rw [if_pos hj] at hs
        simp only [Option.some.injEq] at hs
        left; exact hs.symm
      · rw [if_neg hj] at hs; simp at hs

theorem Home.get_logs_total_of_goodCursor (h : Home)
    (hjtx : h.journalctl_tx = true) (hg : goodCursor h.filtered_units) :
    h.get_logs = some h ∨ h.get_logs = some { h with logs := [] } := by
  apply Home.get_logs_total
  rcases hg with hemp | hvalid
  · exact Or.inl hemp
  · unfold cursorValid at hvalid
    cases hc : h.filtered_units.cursor with
    | none => exact Or.inr (Or.inl rfl)
    | some i =>
      rw [hc] at hvalid
      simp at hvalid
      exact Or.inr (Or.inr ⟨i, rfl, hvalid, hjtx⟩)

theorem Home.select_false_eq (h : Home) (index : Option Nat) :
    h.select index false =
      some { h with filtered_units := h.filtered_units.select index } := rfl

theorem Home.select_true_eq (h : Home) (index : Option Nat) :
    h.select index true =
      (({ h with
          logs := [],
          filtered_units := h.filtered_units.select index } : Home).get_logs).map
        (fun h3 => { h3 with logs_scroll_offset := 0 }) := rfl

theorem Home.select_true_success {h h' : Home} {index : Option Nat}
    (hs : h.select index true = some h') :
    h' = { h with
           logs := [], logs_scroll_offset := 0,
           filtered_units := h.filtered_units.select index } := by
  rw [Home.select_true_eq, Option.map_eq_some'] at hs
  obtain ⟨h3, hget, hf⟩ := hs
  rcases Home.get_logs_success hget with h3eq | h3eq <;>
    (subst h3eq; rw [← hf])

theorem Home.select_true_isSome (h : Home) (i : Nat)
    (hcase : h.filtered_units.items = [] ∨
      (i < h.filtered_units.items.length ∧ h.journalctl_tx = true)) :
    h.select (some i) true =
      some { h with
             logs := [], logs_scroll_offset := 0,
             filtered_units := h.filtered_units.select (some i) } := by
  rw [Home.select_true_eq]
  have hok := Home.get_logs_total
    ({ h with
       logs := [],
       filtered_units := h.filtered_units.select (some i) })
    (by
      rcases hcase with hemp | ⟨hi, hjtx⟩
      · exact Or.inl hemp
      · exact Or.inr (Or.inr ⟨i, rfl, hi, hjtx⟩))
  rcases hok with hgl | hgl <;> rw [hgl] <;> rfl

theorem Home.select_none_true (h : Home) :
    h.select none true =
      some { h with
             logs := [], logs_scroll_offset := 0,
             filtered_units := h.filtered_units.select none } := by
  rw [Home.select_true_eq]
  have hok := Home.get_logs_total
    ({ h with
       logs := [],
       filtered_units := h.filtered_units.select none })
    (Or.inr (Or.inl rfl))
  rcases hok with hgl | hgl <;> rw [hgl] <;> rfl

/-! Lemmas about `refreshReselect` and `refresh_filtered_units`. -/

theorem Home.refreshReselect_success {h1 h' : Home} {prev : Option UnitId}
    (hr : h1.refreshReselect prev = some h') :
    (h'.all_units = h1.all_units ∧ h'.input = h1.input ∧
     h'.journalctl_tx = h1.journalctl_tx ∧ h'.action_tx = h1.action_tx ∧
     h'.mode = h1.mode ∧ h'.menu_items = h1.menu_items ∧
     h'.cancel_token = h1.cancel_token ∧ h'.cancelled_tokens = h1.cancelled_tokens ∧
     h'.filtered_units.items = h1.filtered_units.items) ∧
    goodCursor h'.filtered_units ∧
    (∀ p, prev = some p →
      position (fun u => u.name == p.name && u.scope == p.scope)
        h1.filtered_units.items = none →
      h'.filtered_units.cursor = some 0) := by
  unfold Home.refreshReselect at hr
  split at hr
  · rename_i p
    split at hr
    · rename_i index hpos
      rw [Home.select_false_eq] at hr
      simp only [Option.some.injEq] at hr
      subst hr
      refine ⟨⟨rfl, rfl, rfl, rfl, rfl, rfl, rfl, rfl, rfl⟩, ?_, ?_⟩
      · right
        simp [cursorValid, StatefulList.select]
        exact position_lt_length hpos
      · intro p' hp' hpos'
        injection hp' with hpe
        subst hpe
        rw [hpos] at hpos'
        simp at hpos'
    · rename_i hpos
      have hh := Home.select_true_success hr
      subst hh
      refine ⟨⟨rfl, rfl, rfl, rfl, rfl, rfl, rfl, rfl, rfl⟩, ?_, ?_⟩
      · by_cases hemp : h1.filtered_units.items = []
        · exact Or.inl hemp
        · right
          simp [cursorValid, StatefulList.select]
          exact List.length_pos.mpr hemp
      · intro p' hp' hpos'
        rfl
  · split at hr
    · rename_i hcond
      have hh := Home.select_true_success hr
      subst hh
      have hne : h1.filtered_units.items ≠ [] := by
        intro hh2
        rw [hh2] at hcond
        simp at hcond
      refine ⟨⟨rfl, rfl, rfl, rfl, rfl, rfl, rfl, rfl, rfl⟩, ?_, ?_⟩
      · right
        simp [cursorValid, StatefulList.select]
        exact List.length_pos.mpr hne
      · intro p' hp' hpos'
        simp at hp'
    · rename_i hcond
      simp only [Option.some.injEq] at hr
      subst hr
      refine ⟨⟨rfl, rfl, rfl, rfl, rfl, rfl, rfl, rfl, rfl⟩, Or.inr rfl, ?_⟩
      intro p' hp' hpos'
      simp at hp'

theorem Home.refresh_success {h h' : Home}
    (hr : h.refresh_filtered_units = some h') :
    (h'.all_units = h.all_units ∧ h'.input = h.input ∧
     h'.journalctl_tx = h.journalctl_tx ∧ h'.action_tx = h.action_tx ∧
     h'.mode = h.mode ∧ h'.menu_items = h.menu_items ∧
     h'.cancel_token = h.cancel_token ∧ h'.cancelled_tokens = h.cancelled_tokens ∧
     h'.filtered_units.items = (valuesMap h.all_units).filter (unitMatches h.input)) ∧
    goodCursor h'.filtered_units ∧
    (∀ p, h.selected_service = some (some p) →
      position (fun u => u.name == p.name && u.scope == p.scope)
        ((valuesMap h.all_units).filter (unitMatches h.input)) = none →
      h'.filtered_units.cursor = some 0) := by
  unfold Home.refresh_filtered_units at hr
  split at hr
  · simp at hr
  · rename_i prev hsel
    obtain ⟨hframe, hgc, hclause⟩ := Home.refreshReselect_success hr
    refine ⟨hframe, hgc, ?_⟩
    intro p hp hpos
    rw [hsel] at hp
    injection hp with hp2
    exact hclause p hp2 hpos

theorem Home.refreshReselect_isSome (h1 : Home) (prev : Option UnitId)
    (hjtx : h1.journalctl_tx = true) :
    ∃ h', h1.refreshReselect prev = some h' := by
  unfold Home.refreshReselect
  cases prev with
  | some p =>
    cases hpos : position (fun u => u.name == p.name && u.scope == p.scope)
        h1.filtered_units.items with
    | some index =>
      simp only [hpos]
      exact ⟨_, Home.select_false_eq h1 (some index)⟩
    | none =>
      simp only [hpos]
      refine ⟨_, Home.select_true_isSome h1 0 ?_⟩
      by_cases hemp : h1.filtered_units.items = []
      · exact Or.inl hemp
      · exact Or.inr ⟨List.length_pos.mpr hemp, hjtx⟩
  | none =>
    by_cases hemp : h1.filtered_units.items = []
    · have he : h1.filtered_units.items.isEmpty = true := by rw [hemp]; rfl
      simp [he]
    · have he : h1.filtered_units.items.isEmpty = false := by
        rcases hx : h1.filtered_units.items with _ | ⟨a, as⟩
        · exact absurd hx hemp
        · rfl
      simp only [he, Bool.not_false, if_pos]
      refine ⟨_, Home.select_true_isSome h1 0 ?_⟩
      exact Or.inr ⟨List.length_pos.mpr hemp, hjtx⟩

theorem Home.refresh_isSome (h : Home)
    (hjtx : h.journalctl_tx = true) (hg : goodCursor h.filtered_units) :
    ∃ h', h.refresh_filtered_units = some h' := by
  unfold Home.refresh_filtered_units
  obtain ⟨v, hv⟩ := StatefulList.selectedP_of_goodCursor hg
  have hsel : h.selected_service = some (v.map UnitWithStatus.id) := by
    unfold Home.selected_service
    rw [hv]
    rfl
  rw [hsel]
  exact Home.refreshReselect_isSome _ _ hjtx

/-! Lemmas about `next` and `previous`. -/

theorem StatefulList.next_goodCursor {T : Type} (l : StatefulList T) :
    goodCursor l.next := by
  by_cases hemp : l.items = []
  · exact Or.inl hemp
  · right
    unfold StatefulList.next cursorValid
    cases hc : l.cursor with
    | none =>
      simp
      exact List.length_pos.mpr hemp
    | some i =>
      by_cases hge : i ≥ l.items.length - 1
      · simp [hge]
        exact List.length_pos.mpr hemp
      · simp [hge]
        omega

theorem StatefulList.previous_goodCursor {T : Type} {l : StatefulList T}
    (hg : goodCursor l) : goodCursor l.previous := by
  by_cases hemp : l.items = []
  · exact Or.inl hemp
  · right
    unfold StatefulList.previous cursorValid
    have hlen : 0 < l.items.length := List.length_pos.mpr hemp
    cases hc : l.cursor with
    | none =>
      simp
      exact hlen
    | some i =>
      by_cases hi0 : i = 0
      · have hne : l.items.length ≠ 0 := by omega
        simp [hi0, hne]
        omega
      · simp [hi0]
        rcases hg with hemp2 | hvalid
        · exact absurd hemp2 hemp
        · unfold cursorValid at hvalid
          rw [hc] at hvalid
          simp at hvalid
          omega

theorem Home.logsStep_total (h : Home) (l2 : StatefulList UnitWithStatus)
    (hjtx : h.journalctl_tx = true) (hg2 : goodCursor l2) :
    ∃ h2, (({ h with logs := [], filtered_units := l2 } : Home).get_logs).map
        (fun x => { x with logs_scroll_offset := 0 }) = some h2 ∧
      goodCursor h2.filtered_units ∧ h2.journalctl_tx = true := by
  have hgl := Home.get_logs_total_of_goodCursor
    ({ h with logs := [], filtered_units := l2 }) hjtx hg2
  rcases hgl with hgl | hgl <;>
  · refine ⟨{ h with
              logs := [], filtered_units := l2, logs_scroll_offset := 0 }, ?_, hg2, hjtx⟩
    rw [hgl]
    rfl

theorem Home.next_total (h : Home) (hjtx : h.journalctl_tx = true) :
    ∃ h2, h.next = some h2 ∧ goodCursor h2.filtered_units ∧ h2.journalctl_tx = true :=
  Home.logsStep_total h (h.filtered_units.next) hjtx (StatefulList.next_goodCursor _)

theorem Home.previous_total (h : Home) (hjtx : h.journalctl_tx = true)
    (hg : goodCursor h.filtered_units) :
    ∃ h2, h.previous = some h2 ∧ goodCursor h2.filtered_units ∧ h2.journalctl_tx = true :=
  Home.logsStep_total h (h.filtered_units.previous) hjtx
    (StatefulList.previous_goodCursor hg)

/-! Lemmas about the unit map and merging. -/

theorem getMap_updateEntry_self {m : UnitMap} {k : UnitId} {u v : UnitWithStatus}
    (hget : getMap m k = some v) :
    getMap (updateEntry m k u) k = some (v.update u) := by
  induction m with
  | nil => simp [getMap] at hget
  | cons kv rest ih =>
    obtain ⟨k0, v0⟩ := kv
    by_cases hk : k0 = k
    · subst hk
      simp [getMap] at hget
      subst hget
      simp [updateEntry, getMap]
    · simp only [getMap, if_neg hk] at hget
      simp only [updateEntry, getMap, if_neg hk]
      exact ih hget

theorem getMap_updateEntry_ne {m : UnitMap} {k k' : UnitId} {u : UnitWithStatus}
    (hne : ¬k = k') : getMap (updateEntry m k u) k' = getMap m k' := by
  induction m with
  | nil => rfl
  | cons kv rest ih =>
    obtain ⟨k0, v0⟩ := kv
    by_cases hk : k0 = k
    · subst hk
      simp [updateEntry, getMap, hne]
    · by_cases hk2 : k0 = k'
      · subst hk2
        simp [updateEntry, getMap, hk]
      · simp [updateEntry, getMap, hk, hk2, ih]

theorem getMap_updateEntry_isSome {m : UnitMap} {k : UnitId} {u : UnitWithStatus}
    (k' : UnitId) :
    (getMap (updateEntry m k u) k').isSome = (getMap m k').isSome := by
  by_cases hk : k = k'
  · subst hk
    cases hget : getMap m k with
    | none =>
      have : updateEntry m k u = m := by
        induction m with
        | nil => rfl
        | cons kv rest ih =>
          obtain ⟨k0, v0⟩ := kv
          by_cases hk0 : k0 = k
          · subst hk0; simp [getMap] at hget
          · simp only [getMap, if_neg hk0] at hget
            simp [updateEntry, hk0, ih hget]
      rw [this, hget]
    | some v =>
      simp [getMap_updateEntry_self hget, hget]
  · rw [getMap_updateEntry_ne hk]

theorem getMap_append_left {m₁ m₂ : UnitMap} {k : UnitId} {v : UnitWithStatus}
    (hget : getMap m₁ k = some v) : getMap (m₁ ++ m₂) k = some v := by
  induction m₁ with
  | nil => simp [getMap] at hget
  | cons kv rest ih =>
    obtain ⟨k0, v0⟩ := kv
    by_cases hk : k0 = k
    · simp only [getMap, if_pos hk] at hget
      simp [getMap, hk, hget]
    · simp only [getMap, if_neg hk] at hget
      simp [getMap, hk, ih hget]

theorem getMap_append_right {m₁ m₂ : UnitMap} {k : UnitId}
    (hget : getMap m₁ k = none) : getMap (m₁ ++ m₂) k = getMap m₂ k := by
  induction m₁ with
  | nil => rfl
  | cons kv rest ih =>
    obtain ⟨k0, v0⟩ := kv
    by_cases hk : k0 = k
    · simp [getMap, hk] at hget
    · simp only [getMap, if_neg hk] at hget
      simp [getMap, hk, ih hget]

theorem mergeOne_preserves (u : UnitWithStatus) {m : UnitMap} {k : UnitId}
    {v : UnitWithStatus} (hget : getMap m k = some v) :
    ∃ v', getMap (mergeOne m u) k = some v' ∧ v'.file_path = v.file_path ∧
      v'.name = v.name ∧ v'.scope = v.scope ∧
      v'.enablement_state = v.enablement_state := by
  unfold mergeOne
  by_cases hc : containsKey m u.id = true
  · rw [if_pos hc]
    by_cases hk : u.id = k
    · subst hk
      exact ⟨v.update u, getMap_updateEntry_self hget, rfl, rfl, rfl, rfl⟩
    · rw [getMap_updateEntry_ne hk]
      exact ⟨v, hget, rfl, rfl, rfl, rfl⟩
  · rw [if_neg hc]
    rw [getMap_append_left hget]
    exact ⟨v, rfl, rfl, rfl, rfl, rfl⟩

theorem mergeOne_self_isSome (m : UnitMap) (u : UnitWithStatus) :
    (getMap (mergeOne m u) u.id).isSome = true := by
  unfold mergeOne
  by_cases hc : containsKey m u.id = true
  · rw [if_pos hc]
    rw [getMap_updateEntry_isSome]
    exact hc
  · rw [if_neg hc]
    have hnone : getMap m u.id = none := by
      cases hx : getMap m u.id with
      | none => rfl
      | some v => exact absurd (by simp [containsKey, hx]) hc
    rw [getMap_append_right hnone]
    simp [getMap]

theorem mergeOne_isSome_mono {m : UnitMap} {u : UnitWithStatus} {k : UnitId}
    (hs : (getMap m k).isSome = true) : (getMap (mergeOne m u) k).isSome = true := by
  obtain ⟨v, hv⟩ := Option.isSome_iff_exists.mp hs
  obtain ⟨v', hv', _⟩ := mergeOne_preserves u hv
  simp [hv']

theorem mergeUnits_preserves {units : List UnitWithStatus} {m : UnitMap} {k : UnitId}
    {v : UnitWithStatus} (hget : getMap m k = some v) :
    ∃ v', getMap (mergeUnits m units) k = some v' ∧ v'.file_path = v.file_path ∧
      v'.name = v.name ∧ v'.scope = v.scope ∧
      v'.enablement_state = v.enablement_state := by
  induction units generalizing m v with
  | nil => exact ⟨v, hget, rfl, rfl, rfl, rfl⟩
  | cons u us ih =>
    obtain ⟨v1, h1, hfp1, hn1, hs1, he1⟩ := mergeOne_preserves u hget
    obtain ⟨v2, h2, hfp2, hn2, hs2, he2⟩ := ih h1
    exact ⟨v2, h2, hfp2.trans hfp1, hn2.trans hn1, hs2.trans hs1, he2.trans he1⟩

theorem mergeUnits_isSome_mono {units : List UnitWithStatus} {m : UnitMap} {k : UnitId}
    (hs : (getMap m k).isSome = true) :
    (getMap (mergeUnits m units) k).isSome = true := by
  induction units generalizing m with
  | nil => exact hs
  | cons u us ih => exact ih (mergeOne_isSome_mono hs)

theorem mergeUnits_incoming {units : List UnitWithStatus} {m : UnitMap} :
    ∀ u ∈ units, (getMap (mergeUnits m units) u.id).isSome = true := by
  induction units generalizing m with
  | nil => intro u hu; simp at hu
  | cons u0 us ih =>
    intro u hu
    rcases List.mem_cons.mp hu with rfl | hu2
    · show (getMap (mergeUnits (mergeOne m u) us) u.id).isSome = true
      exact mergeUnits_isSome_mono (mergeOne_self_isSome m u)
    · exact ih u hu2

/-! Arm lemmas for `Home.dispatch`, exposing each match arm's body. -/

theorem Home.dispatch_appendLogLine (h : Home) (u : UnitId) (line : Str) :
    h.dispatch (Action.AppendLogLine u line) =
      match h.filtered_units.selectedP with
      | none => none
      | some (some selected) =>
        if selected.id = u then some ({ h with logs := h.logs ++ [line] }, none)
        else some (h, none)
      | some none => some (h, none) := rfl

theorem Home.dispatch_setLogs (h : Home) (u : UnitId) (logs : List Str) :
    h.dispatch (Action.SetLogs u logs) =
      match h.filtered_units.selectedP with
      | none => none
      | some (some selected) =>
        if selected.id = u then some ({ h with logs := logs }, none)
        else some (h, none)
      | some none => some (h, none) := rfl

theorem Home.dispatch_enterMode (h : Home) (mode : Mode) :
    h.dispatch (Action.EnterMode mode) =
      (if mode = Mode.ActionMenu then
        match h.filtered_units.selectedP with
        | none => none
        | some none => some (h, none)
        | some (some selected) =>
          some ({ h with
                  menu_items :=
                    { cursor := some 0,
                      items :=
                        [ { name := "Start".toList,
                            action := Action.StartService selected.id },
                          { name := "Stop".toList,
                            action := Action.StopService selected.id },
                          { name := "Restart".toList,
                            action := Action.RestartService selected.id },
                          { name := "Copy unit file path to clipboard".toList,
                            action := Action.CopyUnitFilePath } ] },
                  mode := mode }, some Action.Render)
      else some ({ h with mode := mode }, some Action.Render)) := rfl

theorem Home.dispatch_toggleHelp (h : Home) :
    h.dispatch Action.ToggleHelp =
      (if h.mode ≠ Mode.Help then
        some ({ h with previous_mode := some h.mode, mode := Mode.Help },
          some Action.Render)
      else
        some ({ h with mode := h.previous_mode.getD Mode.Search },
          some Action.Render)) := rfl

theorem Home.dispatch_copyPath (h : Home) :
    h.dispatch Action.CopyUnitFilePath =
      (match h.filtered_units.selectedP with
      | none => none
      | some none => some (h, none)
      | some (some selected) =>
        match selected.file_path with
        | some _ =>
          if h.clipboard_ok then some (h, some (Action.EnterMode Mode.ServiceList))
          else some (h, some (Action.EnterError clipboardErrorMessage))
        | none =>
          some (h, some (Action.EnterError "No unit file path available".toList))) := rfl

theorem Home.dispatch_setUnitFilePath (h : Home) (unit : UnitId) (path : Str) :
    h.dispatch (Action.SetUnitFilePath unit path) =
      (match ({ h with
                all_units := setFilePath h.all_units unit path } : Home).refresh_filtered_units with
      | none => none
      | some h1 => some (h1, none)) := rfl

theorem Home.dispatch_setServices (h : Home) (units : List UnitWithStatus) :
    h.dispatch (Action.SetServices units) =
      (match h.update_units units with
      | none => none
      | some h1 => some (h1, some Action.Render)) := rfl

theorem Home.dispatch_cancelTask (h : Home) :
    h.dispatch Action.CancelTask =
      some ({ h with
              cancel_token := none,
              cancelled_tokens :=
                match h.cancel_token with
                | some t => t :: h.cancelled_tokens
                | none => h.cancelled_tokens,
              mode := Mode.ServiceList }, some Action.Render) := rfl

/-! Claim theorems. -/

/-- C1 counterexample: from a state with a selected unit, a search-text
change to "z" (matching nothing) leaves the filtered view empty with the
cursor still `some 0` — not cleared and not a valid index — so the claimed
invariant (cursor `None` or valid, and cleared on an empty view after a
search change losing the selection) is false as stated. -/
theorem c1_selection_cursor_cex :
    (egHome.applyOp (RegistryOp.setSearch "z".toList)).map
        (fun h => (cursorValid h.filtered_units, h.filtered_units.items.isEmpty,
          h.filtered_units.cursor)) =
      some (false, true, some 0) := by decide

/-- C1 (amended): after `set_units`, `update_units`, a search-text change,
`next`, `previous`, `select` (with an in-range-or-`None` index, as the
program invokes it) and `unselect`, the cursor is `None`, a valid index, or
an arbitrary index while the filtered view is empty (observably no
selection, since `selected()` guards on emptiness); after a search-text
change in which the previously selected unit id is no longer present, the
cursor is index 0 whether or not the filtered view is empty, and on an
empty view the observable selection is `none`. -/
theorem c1_selection_cursor_amended (h : Home) (op : RegistryOp)
    (hjtx : h.journalctl_tx = true) (hg : goodCursor h.filtered_units)
    (hop : opValid h op) :
    ∃ h', h.applyOp op = some h' ∧ goodCursor h'.filtered_units ∧
      h'.journalctl_tx = true ∧
      (∀ s p, op = RegistryOp.setSearch s →
        h.selected_service = some (some p) →
        position (fun u => u.name == p.name && u.scope == p.scope)
          ((valuesMap h.all_units).filter (unitMatches s)) = none →
        h'.filtered_units.cursor = some 0 ∧
        (h'.filtered_units.items = [] → h'.filtered_units.selectedD = none)) := by
  cases op with
  | setUnits units =>
    obtain ⟨h', hr⟩ := Home.refresh_isSome
      ({ h with all_units := units.foldl (fun m u => insertMap m u.id u) [] }) hjtx hg
    obtain ⟨hframe, hgc, _⟩ := Home.refresh_success hr
    refine ⟨h', hr, hgc, ?_, ?_⟩
    · rw [hframe.2.2.1]; exact hjtx
    · intro s p hop2
      simp at hop2
  | updateUnits units =>
    obtain ⟨h', hr⟩ := Home.refresh_isSome
      ({ h with all_units := mergeUnits h.all_units units }) hjtx hg
    obtain ⟨hframe, hgc, _⟩ := Home.refresh_success hr
    refine ⟨h', hr, hgc, ?_, ?_⟩
    · rw [hframe.2.2.1]; exact hjtx
    · intro s p hop2
      simp at hop2
  | setSearch s =>
    obtain ⟨h', hr⟩ := Home.refresh_isSome ({ h with input := s }) hjtx hg
    obtain ⟨hframe, hgc, hclause⟩ := Home.refresh_success hr
    refine ⟨h', hr, hgc, ?_, ?_⟩
    · rw [hframe.2.2.1]; exact hjtx
    · intro s' p hop2 hsel hpos
      injection hop2 with hss
      subst hss
      exact ⟨hclause p hsel hpos, fun hempty => StatefulList.selectedD_of_nil hempty⟩
  | next =>
    obtain ⟨h2, hn, hgc, hj⟩ := Home.next_total h hjtx
    refine ⟨h2, hn, hgc, hj, ?_⟩
    intro s p hop2
    simp at hop2
  | previous =>
    obtain ⟨h2, hn, hgc, hj⟩ := Home.previous_total h hjtx hg
    refine ⟨h2, hn, hgc, hj, ?_⟩
    intro s p hop2
    simp at hop2
  | select index =>
    cases index with
    | none =>
      refine ⟨_, Home.select_none_true h, Or.inr rfl, hjtx, ?_⟩
      intro s p hop2
      simp at hop2
    | some j =>
      have hcase : h.filtered_units.items = [] ∨
          (j < h.filtered_units.items.length ∧ h.journalctl_tx = true) := by
        rcases hop with hj | hemp
        · exact Or.inr ⟨hj, hjtx⟩
        · exact Or.inl hemp
      refine ⟨_, Home.select_true_isSome h j hcase, ?_, hjtx, ?_⟩
      · rcases hcase with hemp | ⟨hj, _⟩
        · exact Or.inl hemp
        · right
          simp [cursorValid, StatefulList.select]
          exact hj
      · intro s p hop2
        simp at hop2
  | unselect =>
    refine ⟨_, rfl, Or.inr rfl, hjtx, ?_⟩
    intro s p hop2
    simp at hop2

/-- C1 witness: the amended theorem applied to the concrete state `egHome`
and the `next` operation. -/
theorem c1_selection_cursor_amended_witness :
    (egHome.applyOp RegistryOp.next).isSome = true := by
  obtain ⟨h', hap, _⟩ := c1_selection_cursor_amended egHome RegistryOp.next rfl
    (by decide) trivial
  rw [hap]
  rfl

/-- C2: once a unit's `file_path` is set, any later `update_units` merge
(whatever the incoming snapshot holds for that id, including omitting it)
leaves the stored `file_path` unchanged; and the per-unit `update` operation
replaces exactly description, load state, activation state and sub-state,
keeping name, scope, file path and enablement state. -/
theorem c2_file_path_preserved (h : Home) (units : List UnitWithStatus) (h' : Home)
    (hup : h.update_units units = some h') (uid : UnitId) (u : UnitWithStatus)
    (p : Str) (hget : getMap h.all_units uid = some u)
    (hfp : u.file_path = some p) :
    (∃ u', getMap h'.all_units uid = some u' ∧ u'.file_path = some p ∧
      u'.name = u.name ∧ u'.scope = u.scope ∧
      u'.enablement_state = u.enablement_state) ∧
    (∀ a b : UnitWithStatus,
      (a.update b).file_path = a.file_path ∧ (a.update b).name = a.name ∧
      (a.update b).scope = a.scope ∧
      (a.update b).enablement_state = a.enablement_state ∧
      (a.update b).description = b.description ∧
      (a.update b).load_state = b.load_state ∧
      (a.update b).activation_state = b.activation_state ∧
      (a.update b).sub_state = b.sub_state) := by
  constructor
  · have hup2 : ({ h with
        all_units := mergeUnits h.all_units units } : Home).refresh_filtered_units =
        some h' := hup
    have hall : h'.all_units = mergeUnits h.all_units units :=
      (Home.refresh_success hup2).1.1
    obtain ⟨v', hv', hfp', hn', hs', he'⟩ := mergeUnits_preserves hget
    refine ⟨v', ?_, ?_, hn', hs', he'⟩
    · rw [hall]; exact hv'
    · rw [hfp']; exact hfp
  · intro a b
    exact ⟨rfl, rfl, rfl, rfl, rfl, rfl, rfl, rfl⟩

/-- C2 witness: merging the fresher snapshot `[egUnitA2]` (no file path)
into `egHome` keeps `egUnitA`'s stored file path. -/
theorem c2_file_path_preserved_witness :
    (getMap egHomeMerged.all_units egUnitA.id).map (fun v => v.file_path) =
      some (some "/etc/a.service".toList) := by
  obtain ⟨⟨u', hget, hfp, _, _, _⟩, _⟩ :=
    c2_file_path_preserved egHome [egUnitA2] egHomeMerged (by decide)
      egUnitA.id egUnitA ("/etc/a.service".toList) (by decide) (by decide)
  rw [hget]
  simp [hfp]

/-- C3: after recomputing the filtered view, `filtered_units` holds exactly
the units of `all_units` whose lowercased short name contains the lowercased
search string, as a subsequence (same relative order) of `all_units`'s
values. -/
theorem c3_filter_exact (h : Home) (h' : Home)
    (hr : h.refresh_filtered_units = some h') :
    (∀ u, u ∈ h'.filtered_units.items ↔
      (u ∈ valuesMap h.all_units ∧ unitMatches h.input u = true)) ∧
    List.Sublist h'.filtered_units.items (valuesMap h.all_units) := by
  have hitems : h'.filtered_units.items =
      (valuesMap h.all_units).filter (unitMatches h.input) :=
    (Home.refresh_success hr).1.2.2.2.2.2.2.2.2
  constructor
  · intro u
    rw [hitems]
    simp [List.mem_filter]
  · rw [hitems]
    exact List.filter_sublist _

/-- C3 witness: the theorem applied to the concrete state `egHomeSearchA`
(search string "a"). -/
theorem c3_filter_exact_witness :
    (egUnitA ∈ egHomeSearchARef.filtered_units.items ↔
      (egUnitA ∈ valuesMap egHomeSearchA.all_units ∧
        unitMatches egHomeSearchA.input egUnitA = true)) ∧
    List.Sublist egHomeSearchARef.filtered_units.items
      (valuesMap egHomeSearchA.all_units) := by
  have hc := c3_filter_exact egHomeSearchA egHomeSearchARef (by decide)
  exact ⟨hc.1 egUnitA, hc.2⟩

/-- C4: `AppendLogLine` appends its line exactly when a unit is selected and
its id equals the action's unit id, and `SetLogs` replaces the buffer under
the same guard; with no selection, or a different selected unit, the state
is unchanged and no follow-up action is returned. -/
theorem c4_stale_log_guard (h : Home) (u : UnitId) (line : Str)
    (logs : List Str) (sel : UnitWithStatus) :
    (h.filtered_units.selectedP = some (some sel) →
      h.dispatch (Action.AppendLogLine u line) =
        some ((if sel.id = u then { h with logs := h.logs ++ [line] } else h),
          none) ∧
      h.dispatch (Action.SetLogs u logs) =
        some ((if sel.id = u then { h with logs := logs } else h), none)) ∧
    (h.filtered_units.selectedP = some none →
      h.dispatch (Action.AppendLogLine u line) = some (h, none) ∧
      h.dispatch (Action.SetLogs u logs) = some (h, none)) := by
  constructor
  · intro hsel
    constructor
    · rw [Home.dispatch_appendLogLine, hsel]
      by_cases he : sel.id = u
      · simp [he]
      · simp [he]
    · rw [Home.dispatch_setLogs, hsel]
      by_cases he : sel.id = u
      · simp [he]
      · simp [he]
  · intro hsel
    exact ⟨by rw [Home.dispatch_appendLogLine, hsel],
      by rw [Home.dispatch_setLogs, hsel]⟩

/-- C4 witness: the theorem applied to `egHome` (with `egUnitA` selected),
matching the selected id, appends the delivered line. -/
theorem c4_stale_log_guard_witness :
    egHome.dispatch (Action.AppendLogLine egUnitA.id "hello".toList) =
      some ({ egHome with logs := egHome.logs ++ ["hello".toList] }, none) := by
  have hc := (c4_stale_log_guard egHome egUnitA.id "hello".toList [] egUnitA).1
    (by decide)
  simpa using hc.1

/-- C5: `CancelTask` always empties the task slot and forces the mode to
`ServiceList`, signalling the stored cancellation handle when one was
present; with no running task it is an idempotent no-op on the slot, and it
never panics. -/
theorem c5_cancel_task (h : Home) :
    (h.dispatch Action.CancelTask).isSome = true ∧
    (∀ h' fa, h.dispatch Action.CancelTask = some (h', fa) →
      fa = some Action.Render ∧ h'.cancel_token = none ∧
      h'.mode = Mode.ServiceList ∧
      (∀ t, h.cancel_token = some t →
        h'.cancelled_tokens = t :: h.cancelled_tokens) ∧
      (h.cancel_token = none →
        h' = { h with cancel_token := none, mode := Mode.ServiceList })) := by
  constructor
  · rw [Home.dispatch_cancelTask]; rfl
  · intro h' fa hd
    rw [Home.dispatch_cancelTask] at hd
    simp only [Option.some.injEq, Prod.mk.injEq] at hd
    obtain ⟨hh, hfa⟩ := hd
    subst hh
    subst hfa
    refine ⟨rfl, rfl, rfl, ?_, ?_⟩
    · intro t ht
      simp [ht]
    · intro ht
      simp [ht]

/-- C5 witness: the theorem applied to `egHomeToken`, whose slot holds the
token 7. -/
theorem c5_cancel_task_witness :
    egHomeTokenCancelled.cancel_token = none ∧
    egHomeTokenCancelled.mode = Mode.ServiceList ∧
    egHomeTokenCancelled.cancelled_tokens = 7 :: egHomeToken.cancelled_tokens := by
  have h2 := (c5_cancel_task egHomeToken).2 egHomeTokenCancelled
    (some Action.Render) (by decide)
  exact ⟨h2.2.1, h2.2.2.1, h2.2.2.2.1 7 (by decide)⟩

theorem Home.dispatch_startService (h : Home) (s : UnitId) :
    h.dispatch (Action.StartService s) =
      (h.service_action).map (fun h1 => (h1, none)) := rfl

theorem Home.dispatch_stopService (h : Home) (s : UnitId) :
    h.dispatch (Action.StopService s) =
      (h.service_action).map (fun h1 => (h1, none)) := rfl

theorem Home.dispatch_restartService (h : Home) (s : UnitId) :
    h.dispatch (Action.RestartService s) =
      (h.service_action).map (fun h1 => (h1, none)) := rfl

theorem Home.dispatch_refreshServices (h : Home) :
    h.dispatch Action.RefreshServices =
      (if h.action_tx then some (h, none) else none) := rfl

theorem Home.service_action_isSome (h : Home) (htx : h.action_tx = true) :
    ((h.service_action).map
      (fun h1 => (h1, (none : Option Action)))).isSome = true := by
  unfold Home.service_action
  rw [if_pos htx]
  rfl

/-- C6: the completion handler of a service action stops the spinner and
requests a refresh in every case; success emits `EnterMode(ServiceList)`;
a failure while the token is cancelled emits neither an error nor a
mode-change action; any other failure emits `EnterError` with the sudo hint
appended exactly when the message contains "AccessDenied". -/
theorem c6_completion_actions (result : Except Str Unit) (is_cancelled : Bool) :
    (serviceActionComplete result is_cancelled).spinner_stopped = true ∧
    Action.RefreshServices ∈ (serviceActionComplete result is_cancelled).emitted ∧
    (∀ r, result = Except.ok r →
      (serviceActionComplete result is_cancelled).emitted =
        [Action.EnterMode Mode.ServiceList, Action.RefreshServices]) ∧
    (∀ e, result = Except.error e → is_cancelled = true →
      (serviceActionComplete result is_cancelled).emitted =
        [Action.RefreshServices]) ∧
    (∀ e, result = Except.error e → is_cancelled = false →
      (serviceActionComplete result is_cancelled).emitted =
        [Action.EnterError
          (if strContains e accessDeniedPattern = true then
            e ++ ['\n', '\n'] ++ sudoHint
          else e),
         Action.RefreshServices]) := by
  refine ⟨rfl, ?_, ?_, ?_, ?_⟩
  · unfold serviceActionComplete
    cases result with
    | ok r => simp
    | error e => cases is_cancelled <;> simp
  · intro r hr
    subst hr
    rfl
  · intro e hr hc
    subst hr
    subst hc
    rfl
  · intro e hr hc
    subst hr
    subst hc
    unfold serviceActionComplete serviceActionErrorMessage
    simp

/-- C6 witness: a non-cancelled failure whose message contains
"AccessDenied" gets the sudo hint appended. -/
theorem c6_completion_actions_witness :
    (serviceActionComplete
        (Except.error "AccessDenied: oh no".toList) false).emitted =
      [Action.EnterError
        ("AccessDenied: oh no".toList ++ ['\n', '\n'] ++ sudoHint),
       Action.RefreshServices] := by
  have hc := (c6_completion_actions
    (Except.error "AccessDenied: oh no".toList) false).2.2.2.2
    ("AccessDenied: oh no".toList) rfl rfl
  rw [hc]
  decide

/-- C7: `update_units` merging never removes a unit: every id present before
remains present, and every incoming unit's id is present afterwards (it was
either updated in place or inserted). -/
theorem c7_merge_never_removes (h : Home) (units : List UnitWithStatus)
    (h' : Home) (hup : h.update_units units = some h') :
    (∀ uid : UnitId, (getMap h.all_units uid).isSome = true →
      (getMap h'.all_units uid).isSome = true) ∧
    (∀ u ∈ units, (getMap h'.all_units u.id).isSome = true) := by
  have hup2 : ({ h with
      all_units := mergeUnits h.all_units units } : Home).refresh_filtered_units =
      some h' := hup
  have hall : h'.all_units = mergeUnits h.all_units units :=
    (Home.refresh_success hup2).1.1
  constructor
  · intro uid hs
    rw [hall]
    exact mergeUnits_isSome_mono hs
  · intro u hu
    rw [hall]
    exact mergeUnits_incoming u hu

/-- C7 witness: after merging `[egUnitA2]` into `egHome`, the unit `b` that
the incoming snapshot omitted is still present. -/
theorem c7_merge_never_removes_witness :
    (getMap egHomeMerged.all_units egUnitB.id).isSome = true := by
  obtain ⟨hmono, _⟩ :=
    c7_merge_never_removes egHome [egUnitA2] egHomeMerged (by decide)
  exact hmono egUnitB.id (by decide)

/-- C8: with a unit selected, `EnterMode(ActionMenu)` enters ActionMenu mode
and builds the menu bound to Start/Stop/Restart for the selected id plus the
copy-file-path item, first item selected; with no selection it is a complete
no-op returning no follow-up action. -/
theorem c8_action_menu_population (h : Home) (sel : UnitWithStatus) :
    (h.filtered_units.selectedP = some (some sel) →
      h.dispatch (Action.EnterMode Mode.ActionMenu) =
        some ({ h with
                menu_items :=
                  { cursor := some 0,
                    items :=
                      [ { name := "Start".toList,
                          action := Action.StartService sel.id },
                        { name := "Stop".toList,
                          action := Action.StopService sel.id },
                        { name := "Restart".toList,
                          action := Action.RestartService sel.id },
                        { name := "Copy unit file path to clipboard".toList,
                          action := Action.CopyUnitFilePath } ] },
                mode := Mode.ActionMenu }, some Action.Render)) ∧
    (h.filtered_units.selectedP = some none →
      h.dispatch (Action.EnterMode Mode.ActionMenu) = some (h, none)) := by
  constructor
  · intro hsel
    rw [Home.dispatch_enterMode]
    simp [hsel]
  · intro hsel
    rw [Home.dispatch_enterMode]
    simp [hsel]

/-- C8 witness: the theorem applied to `egHome`, whose selection is
`egUnitA`. -/
theorem c8_action_menu_population_witness :
    (egHome.dispatch (Action.EnterMode Mode.ActionMenu)).map
        (fun r => (r.1.mode, r.1.menu_items.cursor,
          r.1.menu_items.items.length)) =
      some (Mode.ActionMenu, some 0, 4) := by
  have hc := (c8_action_menu_population egHome egUnitA).1 (by decide)
  rw [hc]
  rfl

/-- C9 counterexample: an error surfaced while the mode was ActionMenu is
dismissed (Esc in Error mode) to ServiceList, not back to ActionMenu, so
"returns to the previously active mode that the error interrupted" is false
as stated. -/
theorem c9_error_dismiss_cex :
    egHomeC9.mode = Mode.ActionMenu ∧
    egHomeC9.dispatch (Action.EnterError "boom".toList) =
      some (egHomeC9b, some (Action.EnterMode Mode.Error)) ∧
    egHomeC9b.dispatch (Action.EnterMode Mode.Error) =
      some (egHomeC9c, some Action.Render) ∧
    egHomeC9c.mode = Mode.Error ∧
    errorModeKeys KeyCode.Esc = [Action.EnterMode Mode.ServiceList] ∧
    errorModeKeys KeyCode.Enter = [Action.EnterMode Mode.ServiceList] ∧
    egHomeC9c.dispatch (Action.EnterMode Mode.ServiceList) =
      some (egHomeC9d, some Action.Render) ∧
    egHomeC9d.mode = Mode.ServiceList ∧
    ¬egHomeC9d.mode = Mode.ActionMenu := by decide

/-- C9 (amended): pressing Esc or Enter in Error mode always emits
`EnterMode(ServiceList)`, and dispatching it sets the mode to ServiceList —
which equals the interrupted mode only when that mode was ServiceList. -/
theorem c9_error_dismiss_amended (h : Home) (k : KeyCode)
    (hk : k = KeyCode.Esc ∨ k = KeyCode.Enter) :
    errorModeKeys k = [Action.EnterMode Mode.ServiceList] ∧
    h.dispatch (Action.EnterMode Mode.ServiceList) =
      some ({ h with mode := Mode.ServiceList }, some Action.Render) := by
  constructor
  · rcases hk with rfl | rfl <;> rfl
  · rw [Home.dispatch_enterMode]
    simp

/-- C9 witness: the amended theorem applied at the concrete Error-mode state
reached from ActionMenu. -/
theorem c9_error_dismiss_amended_witness :
    errorModeKeys KeyCode.Esc = [Action.EnterMode Mode.ServiceList] ∧
    egHomeC9c.dispatch (Action.EnterMode Mode.ServiceList) =
      some ({ egHomeC9c with mode := Mode.ServiceList }, some Action.Render) :=
  c9_error_dismiss_amended egHomeC9c KeyCode.Esc (Or.inl rfl)

/-- C10: after `init` (both channel senders populated) and with a
well-formed cursor — which all reachable states have — `dispatch` is total:
it never panics and returns the new state with at most one follow-up
action; the variants the reducer does not interpret fall through to the
catch-all arm, returning no follow-up and leaving the state unchanged. -/
theorem c10_dispatch_total (h : Home) (a : Action)
    (htx : h.action_tx = true) (hjtx : h.journalctl_tx = true)
    (hg : goodCursor h.filtered_units) :
    (∃ r, h.dispatch a = some r) ∧
    (isCatchAll a = true → h.dispatch a = some (h, none)) := by
  constructor
  · cases a with
    | Quit => exact ⟨_, rfl⟩
    | Resume => exact ⟨_, rfl⟩
    | Suspend => exact ⟨_, rfl⟩
    | Render => exact ⟨_, rfl⟩
    | DebouncedRender => exact ⟨_, rfl⟩
    | SpinnerTick => exact ⟨_, rfl⟩
    | Resize w h2 => exact ⟨_, rfl⟩
    | ToggleShowLogger => exact ⟨_, rfl⟩
    | RefreshServices =>
      refine ⟨(h, none), ?_⟩
      rw [Home.dispatch_refreshServices, if_pos htx]
    | SetServices units =>
      obtain ⟨h1, hh1⟩ := Home.refresh_isSome
        ({ h with all_units := mergeUnits h.all_units units }) hjtx hg
      have hupd : h.update_units units = some h1 := hh1
      refine ⟨(h1, some Action.Render), ?_⟩
      rw [Home.dispatch_setServices, hupd]
    | EnterMode mode =>
      by_cases hm : mode = Mode.ActionMenu
      · subst hm
        obtain ⟨v, hv⟩ := StatefulList.selectedP_of_goodCursor hg
        apply Option.isSome_iff_exists.mp
        rw [Home.dispatch_enterMode]
        cases v with
        | none => simp [hv]
        | some sel => simp [hv]
      · rw [Home.dispatch_enterMode, if_neg hm]
        exact ⟨_, rfl⟩
    | EnterError err => exact ⟨_, rfl⟩
    | CancelTask => exact ⟨_, Home.dispatch_cancelTask h⟩
    | ToggleHelp =>
      rw [Home.dispatch_toggleHelp]
      by_cases hm : h.mode ≠ Mode.Help
      · rw [if_pos hm]
        exact ⟨_, rfl⟩
      · rw [if_neg hm]
        exact ⟨_, rfl⟩
    | SetUnitFilePath unit path =>
      obtain ⟨h1, hh1⟩ := Home.refresh_isSome
        ({ h with all_units := setFilePath h.all_units unit path }) hjtx hg
      refine ⟨(h1, none), ?_⟩
      rw [Home.dispatch_setUnitFilePath, hh1]
    | CopyUnitFilePath =>
      obtain ⟨v, hv⟩ := StatefulList.selectedP_of_goodCursor hg
      apply Option.isSome_iff_exists.mp
      rw [Home.dispatch_copyPath]
      cases v with
      | none => simp [hv]
      | some sel =>
        cases hfp : sel.file_path with
        | some fp =>
          by_cases hcb : h.clipboard_ok = true
          · simp [hv, hfp, hcb]
          · simp [hv, hfp, hcb]
        | none => simp [hv, hfp]
    | SetUnitDescription unit d => exact ⟨_, rfl⟩
    | SetLogs unit logs =>
      obtain ⟨v, hv⟩ := StatefulList.selectedP_of_goodCursor hg
      apply Option.isSome_iff_exists.mp
      rw [Home.dispatch_setLogs, hv]
      cases v with
      | none => simp
      | some sel =>
        by_cases he : sel.id = unit
        · simp [he]
        · simp [he]
    | AppendLogLine unit line =>
      obtain ⟨v, hv⟩ := StatefulList.selectedP_of_goodCursor hg
      apply Option.isSome_iff_exists.mp
      rw [Home.dispatch_appendLogLine, hv]
      cases v with
      | none => simp
      | some sel =>
        by_cases he : sel.id = unit
        · simp [he]
        · simp [he]
    | StartService s =>
      apply Option.isSome_iff_exists.mp
      rw [Home.dispatch_startService]
      exact Home.service_action_isSome h htx
    | StopService s =>
      apply Option.isSome_iff_exists.mp
      rw [Home.dispatch_stopService]
      exact Home.service_action_isSome h htx
    | RestartService s =>
      apply Option.isSome_iff_exists.mp
      rw [Home.dispatch_restartService]
      exact Home.service_action_isSome h htx
    | ReloadService s => exact ⟨_, rfl⟩
    | EnableService s => exact ⟨_, rfl⟩
    | DisableService s => exact ⟨_, rfl⟩
    | ScrollUp o => exact ⟨_, rfl⟩
    | ScrollDown o => exact ⟨_, rfl⟩
    | ScrollToTop => exact ⟨_, rfl⟩
    | ScrollToBottom => exact ⟨_, rfl⟩
    | Noop => exact ⟨_, rfl⟩
  · intro hca
    cases a <;> first | rfl | simp [isCatchAll] at hca

/-- C10 witness: the theorem applied at the concrete post-init state
`egHome` with the catch-all action `Noop`. -/
theorem c10_dispatch_total_witness :
    egHome.dispatch Action.Noop = some (egHome, none) :=
  (c10_dispatch_total egHome Action.Noop rfl rfl (by decide)).2 rfl

end SystemctlTui
